import Mathlib

/-!
Verification of the browser client of the AI test-automation platform
(`src/frontend/public/app.js`, with the React variant in `src/unnamed/part_000`).

The embedding translates the client's pure data transformations and its
event handlers into Lean.  Handlers are modelled as functions from the
application state and the outcome of the (single) network request they
issue to the new state, the toast messages they emit, and the list of
network requests issued, in order.  The network is a parameter: a
function from the request's arguments to an `Except` outcome, mirroring
the `await ... try/catch` structure of the source, where the only
suspension point is the one `fetch`.
-/

/-- Characters treated as whitespace by `String.prototype.trim` that occur
in practice: space, tab, newline, carriage return, vertical tab, form feed. -/
def isJsSpace (c : Char) : Bool :=
  c = ' ' || c = Char.ofNat 9 || c = Char.ofNat 10 || c = Char.ofNat 13 ||
  c = Char.ofNat 11 || c = Char.ofNat 12

/-- Drop leading and trailing whitespace from a character list. -/
def trimChars (l : List Char) : List Char :=
  ((l.dropWhile isJsSpace).reverse.dropWhile isJsSpace).reverse

/-- Model of JavaScript `s.trim()`. -/
def jsTrim (s : String) : String := String.mk (trimChars s.data)

/-- Model of JavaScript `s.split(sep)` for a single-character separator:
auxiliary recursion over the character list, `acc` holds the current
segment reversed. -/
def splitCharAux (sep : Char) : List Char → List Char → List String
  | [], acc => [String.mk acc.reverse]
  | c :: cs, acc =>
      if c = sep then String.mk acc.reverse :: splitCharAux sep cs []
      else splitCharAux sep cs (c :: acc)

/-- Model of JavaScript `s.split('\n')` (the only split the client uses). -/
def splitNl (s : String) : List String :=
  splitCharAux (Char.ofNat 10) s.data []

/-- Model of JavaScript `haystack.includes(needle)` (for non-empty needles). -/
def jsIncludes (haystack needle : String) : Bool :=
  decide (needle.data <:+: haystack.data)

/- ## JSON values and the API client -/

/-- A JSON value, as produced by `res.json()`. -/
inductive Json where
  | null : Json
  | bool : Bool → Json
  | num : Int → Json
  | str : String → Json
  | arr : List Json → Json
  | obj : List (String × Json) → Json

/-- What a settled `fetch` response looks like to the client: the flag and
status from the status line, the `content-type` header, the body as text,
and the body as parsed JSON (consulted only when the client calls
`res.json()`). -/
structure HttpResponse where
  ok : Bool
  status : Nat
  statusText : String
  contentType : String
  bodyText : String
  jsonBody : Json

/-- The error thrown by the API client on a non-success status: the
message is the template string of app.js line 21, built from the status
and from the body text (falling back to the status text when the body
read back empty). -/
structure RequestError where
  status : Nat
  message : String
deriving DecidableEq, Repr

/-- A successful API-client result: parsed JSON or raw text. -/
inductive ApiValue where
  | json : Json → ApiValue
  | text : String → ApiValue

/-- The message of the error thrown on a non-success status: the app.js
line 21 template, built from the status and from the body text, falling
back to the status text when the body read back empty. -/
def apiErrorMessage (res : HttpResponse) : String :=
  "API " ++ toString res.status ++ ": " ++
    (if res.bodyText = "" then res.statusText else res.bodyText)

/-- The API client `api(path, options)` of `app.js` (lines 16-25), as a
function of the single response it receives: on `!res.ok` it throws an
error carrying the status and the message above; otherwise it returns
parsed JSON when the content-type includes `application/json`, and the
raw text otherwise.  One call consumes exactly one response: there is no
retry in the model because there is none in the source. -/
def api (res : HttpResponse) : Except RequestError ApiValue :=
  if !res.ok then
    .error { status := res.status, message := apiErrorMessage res }
  else if jsIncludes res.contentType "application/json" then
    .ok (.json res.jsonBody)
  else
    .ok (.text res.bodyText)

/- ## Health check -/

/-- JavaScript truthiness of an API-client result (`data && ...`). -/
def jsTruthy : ApiValue → Bool
  | .text s => s ≠ ""
  | .json .null => false
  | .json (.bool b) => b
  | .json (.num n) => n ≠ 0
  | .json (.str s) => s ≠ ""
  | .json (.arr _) => true
  | .json (.obj _) => true

/-- The value of `data.status` when it is a string: property access on a
parsed-JSON object looks the field up, and is `undefined` on every other
value (including raw text bodies). -/
def statusField : ApiValue → Option String
  | .json (.obj fields) =>
      match fields.lookup "status" with
      | some (.str s) => some s
      | _ => none
  | _ => none

/-- The two readings of the health indicator. -/
inductive HealthDisplay where
  | healthy : HealthDisplay
  | unreachable : HealthDisplay
deriving DecidableEq, Repr

/-- Model of `checkHealth` of `app.js` (lines 78-91) as a function of the
outcome of the health request: healthy iff the data is truthy and its
status field is the string ok; every other outcome, including a thrown
request error, lands in the catch block and reads unreachable. -/
def checkHealth (r : Except RequestError ApiValue) : HealthDisplay :=
  match r with
  | .error _ => .unreachable
  | .ok v =>
      if jsTruthy v = true ∧ statusField v = some "ok" then .healthy else .unreachable

/- ## Application state -/

/-- A test-case record as the client holds it. -/
structure TestCase where
  id : String
  name : String
  steps : List String
  created_at : Nat
deriving DecidableEq, Repr

/-- One entry of the results panel. -/
structure RunResult where
  id : String
  name : String
  status : String
  duration_ms : Nat
deriving DecidableEq, Repr

/-- One entry of the local run history (`state.runs`); `runAt` models the
source's `at` field (a keyword in Lean). -/
structure RunRecord where
  ids : List String
  runAt : Nat
deriving DecidableEq, Repr

/-- The mutable client state (`state` of `app.js`). -/
structure AppState where
  tests : List TestCase
  runs : List RunRecord
  results : List RunResult
deriving DecidableEq, Repr

/-- The request body built by the form submit handler. -/
structure Payload where
  name : String
  steps : List String
deriving DecidableEq, Repr

/-- Toast severity. -/
inductive ToastKind where
  | info : ToastKind
  | success : ToastKind
  | error : ToastKind
deriving DecidableEq, Repr

/-- A toast notification. -/
structure Toast where
  msg : String
  kind : ToastKind
deriving DecidableEq, Repr

/-- A network request issued through the `API` wrapper. -/
inductive Request where
  | createTest : Payload → Request
  | updateTest : String → Payload → Request
  | deleteTest : String → Request
  | run : List String → Request
deriving DecidableEq, Repr

/-- What a handler produces: the new state, the toasts shown, and the
network requests issued, in order. -/
structure HandlerResult where
  state : AppState
  toasts : List Toast
  requests : List Request
deriving DecidableEq, Repr

/- ## Form submit handler (create / update) -/

/-- The payload built at the top of the submit handler (`app.js` 173-176):
the name trimmed, and the steps textarea split on newlines, each line
trimmed, blank lines dropped (`.filter(Boolean)`). -/
def mkPayload (rawName rawSteps : String) : Payload :=
  { name := jsTrim rawName,
    steps := ((splitNl rawSteps).map jsTrim).filter (fun s => s ≠ "") }

/-- JavaScript `splice(idx, 0, a)`: insert `a` at position `idx`
(appending at the end when `idx` exceeds the length). -/
def spliceIn : List α → Nat → α → List α
  | l, 0, a => a :: l
  | [], _ + 1, a => [a]
  | x :: xs, n + 1, a => x :: spliceIn xs n a

/-- The `tmp-${Date.now()}` placeholder id. -/
def tempId (now : Nat) : String := "tmp-" ++ toString now

/-- The form submit handler of `app.js` (lines 170-207).  `formId` is
`els.formId.value || null`; `now` stands for `Date.now()`;
`netUpdate` / `netCreate` are the outcomes `API.updateTest` /
`API.createTest` would settle with (only one of them is consulted, and
only when validation passes).  The update branch snapshots the previous
record into a local (`original`) that the source never reads again, so
the catch block performs no rollback. -/
def formSubmit (st : AppState) (formId : Option String) (rawName rawSteps : String)
    (now : Nat)
    (netUpdate : String → Payload → Except String TestCase)
    (netCreate : Payload → Except String TestCase) : HandlerResult :=
  let payload := mkPayload rawName rawSteps
  if payload.name = "" then
    { state := st, toasts := [⟨"Name is required", .error⟩], requests := [] }
  else
    match formId with
    | some id =>
        let idx? := st.tests.findIdx? (fun t => t.id = id)
        let stOpt :=
          match idx? with
          | some idx =>
              match st.tests[idx]? with
              | some t =>
                  let t2 := { t with name := payload.name, steps := payload.steps }
                  { st with tests := st.tests.set idx t2 }
              | none => st
          | none => st
        match netUpdate id payload with
        | .ok saved =>
            let st2 :=
              match idx? with
              | some idx => { stOpt with tests := stOpt.tests.set idx saved }
              | none => stOpt
            { state := st2, toasts := [⟨"Test updated", .success⟩],
              requests := [.updateTest id payload] }
        | .error msg =>
            { state := stOpt,
              toasts := [⟨(if msg = "" then "Failed saving test" else msg), .error⟩],
              requests := [.updateTest id payload] }
    | none =>
        let temp : TestCase :=
          { id := tempId now, name := payload.name, steps := payload.steps,
            created_at := now }
        let st1 := { st with tests := temp :: st.tests }
        match netCreate payload with
        | .ok created =>
            let st2 :=
              match st1.tests.findIdx? (fun t => t.id = temp.id) with
              | some idx => { st1 with tests := st1.tests.set idx created }
              | none => st1
            { state := st2, toasts := [⟨"Test created", .success⟩],
              requests := [.createTest payload] }
        | .error msg =>
            { state := st1,
              toasts := [⟨(if msg = "" then "Failed saving test" else msg), .error⟩],
              requests := [.createTest payload] }

/- ## Delete handler -/

/-- The delete branch of the tests-table click handler (`app.js` 225-239):
snapshot the record and its index, splice it out optimistically, then on
a failed request splice it back in at the same index. -/
def deleteHandler (st : AppState) (id : String)
    (netDelete : String → Except String Unit) : HandlerResult :=
  match st.tests.findIdx? (fun t => t.id = id) with
  | none => { state := st, toasts := [], requests := [] }
  | some idx =>
      match st.tests[idx]? with
      | none => { state := st, toasts := [], requests := [] }
      | some removed =>
          let st1 := { st with tests := st.tests.eraseIdx idx }
          match netDelete id with
          | .ok _ =>
              { state := st1, toasts := [⟨"Test deleted", .success⟩],
                requests := [.deleteTest id] }
          | .error msg =>
              { state := { st1 with tests := spliceIn st1.tests idx removed },
                toasts := [⟨(if msg = "" then "Delete failed" else msg), .error⟩],
                requests := [.deleteTest id] }

/- ## Run handlers -/

/-- The body of a successful `/tests/run` response; `results` is `none`
when the JSON has no `results` field (the client applies `|| []`). -/
structure RunResponse where
  results : Option (List RunResult)

/-- Model of the loop `(res.results || []).forEach(r => state.results.unshift(r))`:
each result is pushed onto the front in response order, so after the loop
the returned results sit before the old list in reverse response order. -/
def unshiftAll (rs : List RunResult) (old : List RunResult) : List RunResult :=
  rs.foldl (fun acc r => r :: acc) old

/-- The run branch of the tests-table click handler (`app.js` 241-253):
request first, and only on success prepend the run record and unshift
each returned result; a failed request mutates nothing. -/
def runSingle (st : AppState) (id : String) (now : Nat)
    (netRun : List String → Except String RunResponse) : HandlerResult :=
  match netRun [id] with
  | .ok res =>
      let st1 := { st with runs := ⟨[id], now⟩ :: st.runs }
      let st2 := { st1 with results := unshiftAll (res.results.getD []) st1.results }
      { state := st2, toasts := [⟨"Run completed", .success⟩], requests := [.run [id]] }
  | .error msg =>
      { state := st,
        toasts := [⟨(if msg = "" then "Run failed" else msg), .error⟩],
        requests := [.run [id]] }

/-- The run-all click handler (`app.js` 256-268): with no tests it toasts
`"No tests to run"` and returns before any request; otherwise it behaves
like the single-test run over all ids. -/
def runAll (st : AppState) (now : Nat)
    (netRun : List String → Except String RunResponse) : HandlerResult :=
  let ids := st.tests.map (fun t => t.id)
  if ids.length = 0 then
    { state := st, toasts := [⟨"No tests to run", .error⟩], requests := [] }
  else
    match netRun ids with
    | .ok res =>
        let st1 := { st with runs := ⟨ids, now⟩ :: st.runs }
        let st2 := { st1 with results := unshiftAll (res.results.getD []) st1.results }
        { state := st2, toasts := [⟨"All tests executed", .success⟩],
          requests := [.run ids] }
    | .error msg =>
        { state := st,
          toasts := [⟨(if msg = "" then "Run failed" else msg), .error⟩],
          requests := [.run ids] }

/- ## The React variant (src/unnamed/part_000) -/

/-- The run-related component state of the React variant. -/
structure ReactRunState where
  runError : String
  running : Bool
  runResults : List RunResult
deriving DecidableEq, Repr

/-- `handleRunAll` of the React variant (part_000 lines 158-179): it
clears the error AND the displayed results list before doing anything,
reports `No tests available to run.` without a request when the tests
list is empty, and otherwise replaces the displayed results with the
response list in response order on success, or records the error message
on failure; `running` is reset in the finally block. -/
def handleRunAll (tests : List TestCase) (st : ReactRunState)
    (netRun : List String → Except String RunResponse) :
    ReactRunState × List Request :=
  let st0 : ReactRunState := { st with runError := "", running := true, runResults := [] }
  let ids := tests.map (fun t => t.id)
  if ids.length = 0 then
    ({ st0 with runError := "No tests available to run.", running := false }, [])
  else
    match netRun ids with
    | .ok res =>
        ({ st0 with runResults := res.results.getD [], running := false }, [.run ids])
    | .error msg =>
        ({ st0 with runError := msg, running := false }, [.run ids])

/- ## HTML escaping -/

/-- The per-character mapping inside the regex replacement of
`escapeHtml` (`app.js` 145-147): the five special characters map to their
HTML entities, every other character stands unchanged.  (34 is the double
quote, 39 the apostrophe.) -/
def escapeChar (c : Char) : String :=
  if c = '&' then "&amp;"
  else if c = '<' then "&lt;"
  else if c = '>' then "&gt;"
  else if c = Char.ofNat 34 then "&quot;"
  else if c = Char.ofNat 39 then "&#39;"
  else String.mk [c]

/-- Concatenation of the per-character replacements over a character list. -/
def escData : List Char → List Char
  | [] => []
  | c :: cs => (escapeChar c).data ++ escData cs

/-- Model of `escapeHtml` of `app.js`: a global regex replacement over a
single-character class, which is exactly the character-wise mapping
`escapeChar` applied to every character and concatenated. -/
def escapeHtml (s : String) : String := String.mk (escData s.data)

/- ## Rendering of table cells -/

/-- Model of JavaScript `list.join(sep)`. -/
def jsJoin (sep : String) : List String → String
  | [] => ""
  | [x] => x
  | x :: xs => x ++ sep ++ jsJoin sep xs

/-- The name cell of a test-table row (`renderTests`, `app.js` 110):
the escaped name. -/
def renderNameCell (t : TestCase) : String := escapeHtml t.name

/-- The steps cell of a test-table row (`renderTests`, `app.js` 108 and
111): the steps joined with a pipe separator, escaped. -/
def renderStepsCell (t : TestCase) : String :=
  escapeHtml (jsJoin " | " t.steps)

/-- The five characters the escaping regex class matches. -/
def isSpecialChar (c : Char) : Bool :=
  c = '&' || c = '<' || c = '>' || c = Char.ofNat 34 || c = Char.ofNat 39

/-- The four characters that would open or close markup if rendered raw
(every special character except the ampersand, which still occurs inside
entities). -/
def isUnsafeChar (c : Char) : Bool :=
  c = '<' || c = '>' || c = Char.ofNat 34 || c = Char.ofNat 39

/-- The payload carried by a create or update request. -/
def requestPayload : Request → Option Payload
  | .createTest p => some p
  | .updateTest _ p => some p
  | .deleteTest _ => none
  | .run _ => none

/- ## Concrete fixtures used by witnesses and counterexamples -/

/-- A two-record tests list. -/
def twoTests : List TestCase := [⟨"1", "a", [], 0⟩, ⟨"2", "b", [], 0⟩]

/-- A state holding the two records. -/
def twoState : AppState := ⟨twoTests, [], []⟩

/- ## Helper lemmas -/

theorem unshiftAll_eq_reverse_append (rs old : List RunResult) :
    unshiftAll rs old = rs.reverse ++ old := by
  induction rs generalizing old with
  | nil => rfl
  | cons r rs ih =>
      show unshiftAll rs (r :: old) = (r :: rs).reverse ++ old
      rw [ih]
      simp

theorem spliceIn_eraseIdx (l : List α) (i : Nat) (x : α) (h : l[i]? = some x) :
    spliceIn (l.eraseIdx i) i x = l := by
  induction l generalizing i with
  | nil => simp at h
  | cons a as ih =>
      cases i with
      | zero =>
          simp at h
          subst h
          simp [List.eraseIdx, spliceIn]
      | succ n =>
          simp at h
          simp [List.eraseIdx, spliceIn, ih n h]

theorem escData_append (l₁ l₂ : List Char) :
    escData (l₁ ++ l₂) = escData l₁ ++ escData l₂ := by
  induction l₁ with
  | nil => rfl
  | cons c cs ih => simp [escData, ih]

theorem escapeChar_safe (c : Char) :
    (escapeChar c).data.all (fun d => !isUnsafeChar d) = true := by
  unfold escapeChar
  split_ifs with h1 h2 h3 h4 h5
  · decide
  · decide
  · decide
  · decide
  · decide
  · simp [isUnsafeChar, h2, h3, h4, h5]

theorem escData_safe (l : List Char) :
    (escData l).all (fun d => !isUnsafeChar d) = true := by
  induction l with
  | nil => rfl
  | cons c cs ih =>
      simp only [escData, List.all_append]
      rw [escapeChar_safe c, ih]
      rfl

theorem escapeChar_id_of_not_special (c : Char) (h : isSpecialChar c = false) :
    escapeChar c = String.mk [c] := by
  simp only [isSpecialChar, Bool.or_eq_false_iff, decide_eq_false_iff_not] at h
  obtain ⟨⟨⟨⟨h1, h2⟩, h3⟩, h4⟩, h5⟩ := h
  unfold escapeChar
  simp [h1, h2, h3, h4, h5]

theorem escData_id_of_no_special (l : List Char)
    (h : l.all (fun c => !isSpecialChar c) = true) : escData l = l := by
  induction l with
  | nil => rfl
  | cons c cs ih =>
      simp only [List.all_cons, Bool.and_eq_true, Bool.not_eq_true'] at h
      simp [escData, escapeChar_id_of_not_special c h.1,
        ih (by simpa using h.2)]

/- ## Claim theorems -/

/-- C1: the claim states that a failed update restores the pre-edit
snapshot.  The source snapshots the record into a local the catch block
never reads, so no rollback happens: after a failed update of record 1
the list still holds the optimistically edited record, which differs
from the snapshot the claim says is restored. -/
theorem update_failure_keeps_optimistic_edit :
    (formSubmit ⟨[⟨"1", "old", ["a"], 0⟩], [], []⟩ (some "1") "new" "a" 5
        (fun _ _ => Except.error "network down")
        (fun _ => Except.error "network down")).state.tests
      = [⟨"1", "new", ["a"], 0⟩]
    ∧ ([⟨"1", "new", ["a"], 0⟩] : List TestCase) ≠ [⟨"1", "old", ["a"], 0⟩] := by
  decide

/-- C2 as stated is false: after a failed create the placeholder is not
removed.  Starting from an empty list, the list after the failure is not
the empty list it was before the create. -/
theorem create_failure_keeps_placeholder_counterexample :
    (formSubmit ⟨[], [], []⟩ none "X" "" 7
        (fun _ _ => Except.error "down")
        (fun _ => Except.error "down")).state.tests ≠ [] := by
  decide

/-- C2 (amended): for every create submission whose request fails, the
error is surfaced as an error toast, but the optimistically inserted
placeholder record stays at the front of the list (the source removes it
only on success, by replacing it with the server record). -/
theorem create_failure_placeholder_remains (st : AppState)
    (rawName rawSteps : String) (now : Nat)
    (netUpdate : String → Payload → Except String TestCase) (msg : String)
    (hname : jsTrim rawName ≠ "") :
    (formSubmit st none rawName rawSteps now netUpdate
        (fun _ => Except.error msg)).state.tests
      = { id := tempId now, name := (mkPayload rawName rawSteps).name,
          steps := (mkPayload rawName rawSteps).steps,
          created_at := now } :: st.tests
    ∧ (formSubmit st none rawName rawSteps now netUpdate
        (fun _ => Except.error msg)).toasts
      = [⟨(if msg = "" then "Failed saving test" else msg), ToastKind.error⟩] := by
  simp [formSubmit, mkPayload, hname]

/-- Witness for C2 (amended) at a concrete failed create. -/
theorem create_failure_placeholder_remains_witness :
    (formSubmit ⟨[], [], []⟩ none "X" "" 7
        (fun _ _ => Except.error "down")
        (fun _ => Except.error "down")).state.tests
      = [{ id := tempId 7, name := (mkPayload "X" "").name,
           steps := (mkPayload "X" "").steps, created_at := 7 }] :=
  (create_failure_placeholder_remains ⟨[], [], []⟩ "X" "" 7
      (fun _ _ => Except.error "down") "down" (by decide)).1

/-- C4: for every delete of a record found at index `idx` whose request
fails, the record is spliced back in at `idx`, so the state equals its
value before the delete, and the error is surfaced as a toast. -/
theorem delete_failure_restores_state (st : AppState) (id msg : String)
    (netDelete : String → Except String Unit) (idx : Nat) (removed : TestCase)
    (hidx : st.tests.findIdx? (fun t => t.id = id) = some idx)
    (hget : st.tests[idx]? = some removed)
    (hnet : netDelete id = .error msg) :
    (deleteHandler st id netDelete).state = st
    ∧ (deleteHandler st id netDelete).toasts
      = [⟨(if msg = "" then "Delete failed" else msg), ToastKind.error⟩] := by
  simp [deleteHandler, hidx, hget, hnet,
    spliceIn_eraseIdx st.tests idx removed hget]

/-- Witness for C4: deleting the second of two records with the network
down leaves the state exactly as it was. -/
theorem delete_failure_restores_state_witness :
    (deleteHandler twoState "2" (fun _ => Except.error "down")).state = twoState :=
  (delete_failure_restores_state twoState "2" "down"
      (fun _ => Except.error "down") 1 ⟨"2", "b", [], 0⟩ rfl rfl rfl).1

/-- C5 as stated is false for the React variant: `handleRunAll` clears
the displayed results list before issuing the request, so a failed run
leaves that results list empty, not as it was before the invocation. -/
theorem run_failure_clears_react_results_counterexample :
    (handleRunAll [⟨"1", "n1", [], 0⟩] ⟨"", false, [⟨"1", "n1", "pass", 120⟩]⟩
        (fun _ => Except.error "boom")).1.runResults = []
    ∧ ([] : List RunResult) ≠ [⟨"1", "n1", "pass", 120⟩] := by
  decide

/-- C5 (amended): a run invocation whose request fails records no run
result.  In the vanilla client (single-test run branch and run-all
handler) the whole state - in particular the results list and the run
history - is unchanged, because the handlers mutate nothing before the
request settles; the React variant, which resets its displayed results
when a run starts, ends a failed run with an empty results list and the
error message recorded. -/
theorem run_failure_preserves_state (st : AppState) (id : String) (now : Nat)
    (netRun : List String → Except String RunResponse) (msg : String) :
    (netRun [id] = .error msg → (runSingle st id now netRun).state = st)
    ∧ (netRun (st.tests.map (fun t => t.id)) = .error msg →
        (runAll st now netRun).state = st)
    ∧ (∀ (tests : List TestCase) (rst : ReactRunState),
        tests ≠ [] → netRun (tests.map (fun t => t.id)) = .error msg →
        (handleRunAll tests rst netRun).1
          = { runError := msg, running := false, runResults := [] }) := by
  refine ⟨?_, ?_, ?_⟩
  · intro h
    unfold runSingle
    rw [h]
  · intro h
    unfold runAll
    by_cases hl : (st.tests.map (fun t => t.id)).length = 0
    · simp [hl]
    · simp [hl, h]
      split <;> rfl
  · intro tests rst hne h
    simp [handleRunAll, hne, h]

/-- Witness for C5 (amended): a failing run over one test changes nothing
in the vanilla client. -/
theorem run_failure_preserves_state_witness :
    (runSingle twoState "1" 4 (fun _ => Except.error "boom")).state = twoState :=
  (run_failure_preserves_state twoState "1" 4 (fun _ => Except.error "boom") "boom").1 rfl

/-- C6 as stated is false: with no tests the run-all handler reports the
message No tests to run, which is not the message the claim quotes. -/
theorem runAll_empty_message_counterexample :
    (runAll ⟨[], [], []⟩ 3 (fun _ => Except.error "unused")).toasts
      = [⟨"No tests to run", ToastKind.error⟩]
    ∧ "No tests to run" ≠ "no tests available" := by
  decide

/-- C6 (amended): for every run-all invocation with an empty tests list,
the operation fails locally and issues no network request.  The vanilla
client toasts the message No tests to run and leaves the state unchanged;
the React variant records the message No tests available to run. and
clears its displayed results of the previous run. -/
theorem runAll_empty_fails_locally (st : AppState) (now : Nat)
    (netRun : List String → Except String RunResponse) (h : st.tests = []) :
    runAll st now netRun
      = { state := st, toasts := [⟨"No tests to run", ToastKind.error⟩],
          requests := [] }
    ∧ (∀ rst : ReactRunState,
        handleRunAll [] rst netRun
          = (⟨"No tests available to run.", false, []⟩, [])) := by
  constructor
  · unfold runAll
    simp [h]
  · intro rst
    rfl

/-- Witness for C6 (amended) on the empty state. -/
theorem runAll_empty_fails_locally_witness :
    runAll ⟨[], [], []⟩ 3 (fun _ => Except.error "unused")
      = { state := ⟨[], [], []⟩,
          toasts := [⟨"No tests to run", ToastKind.error⟩], requests := [] } :=
  (runAll_empty_fails_locally ⟨[], [], []⟩ 3 (fun _ => Except.error "unused") rfl).1

/-- C3 as stated is false: the handler unshifts each returned result, so
a successful run over two tests displays the response entries in reverse
response order, not in response order as the claim says. -/
theorem runAll_order_counterexample :
    (runAll ⟨[⟨"1", "n1", [], 0⟩, ⟨"2", "n2", [], 0⟩], [], []⟩ 9
        (fun _ => Except.ok ⟨some [⟨"1", "n1", "pass", 120⟩,
                                   ⟨"2", "n2", "fail", 45⟩]⟩)).state.results
      = [⟨"2", "n2", "fail", 45⟩, ⟨"1", "n1", "pass", 120⟩]
    ∧ ([⟨"2", "n2", "fail", 45⟩, ⟨"1", "n1", "pass", 120⟩] : List RunResult)
      ≠ [⟨"1", "n1", "pass", 120⟩, ⟨"2", "n2", "fail", 45⟩] := by
  decide

/-- C3 (amended): for every run-all invocation over a non-empty tests
list whose request succeeds with result list `rs`, in the vanilla client
exactly the entries of `rs` are prepended to the results list - previous
results retained after them - each entry taken verbatim from the
response, but in reverse response order; one run record is prepended to
the run history and the tests list is untouched.  The React variant
instead replaces its displayed results with `rs` in response order,
dropping previous results. -/
theorem runAll_success_prepends_reversed (st : AppState) (now : Nat)
    (netRun : List String → Except String RunResponse) (rs : List RunResult)
    (hne : st.tests ≠ [])
    (hnet : netRun (st.tests.map (fun t => t.id)) = .ok ⟨some rs⟩) :
    (runAll st now netRun).state.results = rs.reverse ++ st.results
    ∧ (runAll st now netRun).state.runs
      = ⟨st.tests.map (fun t => t.id), now⟩ :: st.runs
    ∧ (runAll st now netRun).state.tests = st.tests
    ∧ (∀ (tests : List TestCase) (rst : ReactRunState),
        tests ≠ [] → netRun (tests.map (fun t => t.id)) = .ok ⟨some rs⟩ →
        (handleRunAll tests rst netRun).1.runResults = rs) := by
  refine ⟨?_, ?_, ?_, ?_⟩
  · simp [runAll, hne, hnet, unshiftAll_eq_reverse_append]
  · simp [runAll, hne, hnet]
  · simp [runAll, hne, hnet]
  · intro tests rst hne2 hnet2
    simp [handleRunAll, hne2, hnet2]

/-- Witness for C3 (amended): a two-test run with a pass and a fail. -/
theorem runAll_success_prepends_reversed_witness :
    (runAll ⟨[⟨"1", "n1", [], 0⟩, ⟨"2", "n2", [], 0⟩], [], []⟩ 9
        (fun _ => Except.ok ⟨some [⟨"1", "n1", "pass", 120⟩,
                                   ⟨"2", "n2", "fail", 45⟩]⟩)).state.results
      = ([⟨"1", "n1", "pass", 120⟩, ⟨"2", "n2", "fail", 45⟩] : List RunResult).reverse
          ++ [] :=
  (runAll_success_prepends_reversed
      ⟨[⟨"1", "n1", [], 0⟩, ⟨"2", "n2", [], 0⟩], [], []⟩ 9
      (fun _ => Except.ok ⟨some [⟨"1", "n1", "pass", 120⟩,
                                 ⟨"2", "n2", "fail", 45⟩]⟩)
      [⟨"1", "n1", "pass", 120⟩, ⟨"2", "n2", "fail", 45⟩]
      (by decide) rfl).1

/-- C7: a form submission whose trimmed name is blank fails locally with
the validation toast and issues no network request; otherwise exactly one
request is issued and its payload carries the trimmed name and the step
lines trimmed with the blank lines excluded. -/
theorem submit_validation_and_payload (st : AppState) (formId : Option String)
    (rawName rawSteps : String) (now : Nat)
    (netUpdate : String → Payload → Except String TestCase)
    (netCreate : Payload → Except String TestCase) :
    (jsTrim rawName = "" →
      formSubmit st formId rawName rawSteps now netUpdate netCreate
        = { state := st, toasts := [⟨"Name is required", ToastKind.error⟩],
            requests := [] })
    ∧ (jsTrim rawName ≠ "" →
      (formSubmit st formId rawName rawSteps now netUpdate netCreate).requests.map
          requestPayload
        = [some ⟨jsTrim rawName,
            ((splitNl rawSteps).map jsTrim).filter (fun s => s ≠ "")⟩]) := by
  constructor
  · intro h
    simp [formSubmit, mkPayload, h]
  · intro h
    cases formId with
    | none =>
        cases hc : netCreate (mkPayload rawName rawSteps) with
        | ok created =>
            simp [mkPayload] at hc
            simp [formSubmit, mkPayload, h, hc, requestPayload]
        | error msg =>
            simp [mkPayload] at hc
            simp [formSubmit, mkPayload, h, hc, requestPayload]
    | some id =>
        cases hu : netUpdate id (mkPayload rawName rawSteps) with
        | ok saved =>
            simp [mkPayload] at hu
            simp [formSubmit, mkPayload, h, hu, requestPayload]
        | error msg =>
            simp [mkPayload] at hu
            simp [formSubmit, mkPayload, h, hu, requestPayload]

/-- Witness for C7: a create submission with a padded name and a steps
textarea holding a blank middle line. -/
theorem submit_validation_and_payload_witness :
    (formSubmit ⟨[], [], []⟩ none " hi " " a \n\n b " 3
        (fun _ _ => Except.error "down")
        (fun _ => Except.error "down")).requests.map requestPayload
      = [some ⟨jsTrim " hi ",
          ((splitNl " a \n\n b ").map jsTrim).filter (fun s => s ≠ "")⟩] :=
  (submit_validation_and_payload ⟨[], [], []⟩ none " hi " " a \n\n b " 3
      (fun _ _ => Except.error "down")
      (fun _ => Except.error "down")).2 (by decide)

/-- C8: the API client, which makes a single attempt per call (the model
consumes exactly one response and has no retry path), fails on a
non-success status with an error carrying the HTTP status and a message
containing the status and the response body text (the status text stands
in when the body is empty); on a success status it returns the parsed
JSON when the content-type includes application/json, and the raw body
text for any other content-type. -/
theorem api_single_attempt_contract (res : HttpResponse) :
    (res.ok = false →
      api res = Except.error ⟨res.status, apiErrorMessage res⟩
      ∧ (toString res.status).data <:+: (apiErrorMessage res).data
      ∧ (res.bodyText ≠ "" → res.bodyText.data <:+: (apiErrorMessage res).data))
    ∧ (res.ok = true → jsIncludes res.contentType "application/json" = true →
        api res = Except.ok (ApiValue.json res.jsonBody))
    ∧ (res.ok = true → jsIncludes res.contentType "application/json" = false →
        api res = Except.ok (ApiValue.text res.bodyText)) := by
  refine ⟨?_, ?_, ?_⟩
  · intro h
    refine ⟨by simp [api, h], ?_, ?_⟩
    · refine ⟨"API ".data,
        (": " ++ (if res.bodyText = "" then res.statusText else res.bodyText)).data, ?_⟩
      simp [apiErrorMessage, String.data_append, List.append_assoc]
    · intro hb
      have hmsg : apiErrorMessage res
          = ("API " ++ toString res.status ++ ": ") ++ res.bodyText := by
        simp [apiErrorMessage, hb]
      rw [hmsg, String.data_append]
      exact (List.suffix_append _ _).isInfix
  · intro h hct
    simp [api, h, hct]
  · intro h hct
    simp [api, h, hct]

/-- Witness for C8 at a concrete 404 with a plain-text body. -/
theorem api_single_attempt_contract_witness :
    api ⟨false, 404, "Not Found", "text/plain", "missing", Json.null⟩
      = Except.error
          ⟨404, apiErrorMessage ⟨false, 404, "Not Found", "text/plain", "missing", Json.null⟩⟩ :=
  ((api_single_attempt_contract
      ⟨false, 404, "Not Found", "text/plain", "missing", Json.null⟩).1 rfl).1

/-- C9: the health check reads healthy whenever the health response is a
JSON object whose status field is the string ok, and unreachable on every
success value with any other status field as well as on every failed
request. -/
theorem checkHealth_contract (r : Except RequestError ApiValue) :
    (∀ fields, r = .ok (.json (.obj fields)) →
        fields.lookup "status" = some (.str "ok") → checkHealth r = .healthy)
    ∧ (∀ v, r = .ok v → statusField v ≠ some "ok" → checkHealth r = .unreachable)
    ∧ (∀ e, r = .error e → checkHealth r = .unreachable) := by
  refine ⟨?_, ?_, ?_⟩
  · intro fields hr hs
    subst hr
    simp [checkHealth, jsTruthy, statusField, hs]
  · intro v hr hs
    subst hr
    simp [checkHealth, hs]
  · intro e hr
    subst hr
    rfl

/-- Witness for C9: a status-ok object reads healthy. -/
theorem checkHealth_contract_witness :
    checkHealth (.ok (.json (.obj [("status", Json.str "ok")]))) = .healthy :=
  (checkHealth_contract _).1 [("status", Json.str "ok")] rfl rfl

/-- C10: escapeHtml concatenates a per-character mapping (so it splits
over append), sends each of the five special characters to its HTML
entity, leaves a string without special characters unchanged, and its
output - in particular the name cell and the steps cell rendered into a
table row - never contains a raw less-than, greater-than, double-quote or
apostrophe character. -/
theorem escapeHtml_contract :
    (∀ s t : String, escapeHtml (s ++ t) = escapeHtml s ++ escapeHtml t)
    ∧ (escapeHtml "&" = "&amp;" ∧ escapeHtml "<" = "&lt;"
        ∧ escapeHtml ">" = "&gt;"
        ∧ escapeHtml (String.mk [Char.ofNat 34]) = "&quot;"
        ∧ escapeHtml (String.mk [Char.ofNat 39]) = "&#39;")
    ∧ (∀ s : String, s.data.all (fun c => !isSpecialChar c) = true →
        escapeHtml s = s)
    ∧ (∀ s : String, (escapeHtml s).data.all (fun d => !isUnsafeChar d) = true)
    ∧ (∀ t : TestCase,
        (renderNameCell t).data.all (fun d => !isUnsafeChar d) = true
        ∧ (renderStepsCell t).data.all (fun d => !isUnsafeChar d) = true) := by
  refine ⟨?_, by decide, ?_, ?_, ?_⟩
  · intro s t
    unfold escapeHtml
    rw [String.data_append, escData_append]
    rfl
  · intro s h
    unfold escapeHtml
    rw [escData_id_of_no_special s.data h]
  · intro s
    exact escData_safe s.data
  · intro t
    exact ⟨escData_safe _, escData_safe _⟩

/-- Witness for C10: the homomorphism and identity parts at concrete
strings. -/
theorem escapeHtml_contract_witness :
    escapeHtml ("ab" ++ "<c") = escapeHtml "ab" ++ escapeHtml "<c"
    ∧ escapeHtml "ab" = "ab" :=
  ⟨escapeHtml_contract.1 "ab" "<c", escapeHtml_contract.2.2.1 "ab" (by decide)⟩
